import Mathlib

/-!
Verification development for the giftwrap Debian-package builder
(`giftwrap/packaging_context.py`, `giftwrap/rules/symlink_rule.py`).

The source is Python 2 code (print statements, `0755` octal literals).  The
embedding below translates the relevant parts faithfully:

* Python string/path operations (`os.path.join`, `os.path.dirname`,
  `os.path.basename`, `os.path.relpath`, `str.lstrip('/')`, `str.strip()`,
  `str.split(sep)`) are implemented on `List Char` / `String` with the
  semantics of posixpath / str for the inputs the program uses.
* Python 2 `dict` is embedded as an open-addressing hash table that follows
  CPython 2.7's `stringobject.c` string hash and `dictobject.c` probing,
  insertion and resize policy, because `_write_control` iterates over a plain
  `dict` and the field order of the rendered control file is exactly that
  table's slot order.
* Filesystem and subprocess side effects are recorded as an explicit event
  trace (`FsEvent`), and the mutable `PackagingContext` state is threaded as
  an explicit `Ctx` value.
-/

set_option autoImplicit false

namespace Giftwrap

/-! ### Character-list string helpers -/

/-- Split a character list at every occurrence of `sep`, keeping empty chunks,
like Python's `str.split(sep)` with an explicit separator. -/
def splitOnChar (sep : Char) : List Char → List (List Char)
  | [] => [[]]
  | c :: rest =>
    let r := splitOnChar sep rest
    if c = sep then [] :: r
    else
      match r with
      | [] => [[c]]
      | h :: t => (c :: h) :: t

/-- Python `str.lstrip('/')`: drop every leading `'/'`. -/
def lstripSlash (l : List Char) : List Char := l.dropWhile (fun c => c = '/')

/-- Python whitespace, as used by `str.strip()` with no argument. -/
def isPySpace (c : Char) : Bool :=
  c = ' ' || c = '\t' || c = '\n' || c = '\r' || c = '\x0b' || c = '\x0c'

/-- Python `str.strip()`: remove leading and trailing whitespace. -/
def pyStripChars (l : List Char) : List Char :=
  ((l.dropWhile isPySpace).reverse.dropWhile isPySpace).reverse

/-- Python `str.strip()` on `String`. -/
def pyStrip (s : String) : String := String.mk (pyStripChars s.data)

/-- `posixpath.join(a, b)` for two components: if `b` is absolute it wins;
if `a` is empty or ends in a slash, concatenate; otherwise insert a slash. -/
def pyJoin (a b : String) : String :=
  if b.data.head? = some '/' then b
  else if a.data = [] then a ++ b
  else if a.data.getLast? = some '/' then a ++ b
  else a ++ "/" ++ b

/-- Strip trailing `'/'` characters (`str.rstrip('/')`). -/
def rstripSlashes (l : List Char) : List Char :=
  (l.reverse.dropWhile (fun c => c = '/')).reverse

/-- The head part of `posixpath.dirname`: `p[:p.rfind('/') + 1]`. -/
def dirnameHead (l : List Char) : List Char :=
  l.take (l.length - (l.reverse.takeWhile (fun c => c ≠ '/')).length)

/-- `posixpath.dirname`: everything up to the last slash, with trailing
slashes stripped unless the head is all slashes. -/
def dirnameChars (l : List Char) : List Char :=
  if dirnameHead l = [] then []
  else if (dirnameHead l).all (fun c => c = '/') then dirnameHead l
  else rstripSlashes (dirnameHead l)

/-- `posixpath.dirname` on `String`. -/
def pyDirname (p : String) : String := String.mk (dirnameChars p.data)

/-- `posixpath.basename`: everything after the last slash. -/
def basenameChars (l : List Char) : List Char :=
  (l.reverse.takeWhile (fun c => c ≠ '/')).reverse

/-- `posixpath.basename` on `String`. -/
def pyBasename (p : String) : String := String.mk (basenameChars p.data)

/-- Nonempty slash-separated components of a path, as used by
`posixpath.relpath` (`[x for x in p.split('/') if x]`). -/
def comps (s : String) : List String :=
  ((splitOnChar '/' s.data).map String.mk).filter (fun c => c ≠ "")

/-- Length of the common prefix of two lists of components. -/
def commonPrefixLen : List String → List String → Nat
  | a :: as, b :: bs => if a = b then commonPrefixLen as bs + 1 else 0
  | _, _ => 0

/-- `posixpath.relpath(path, start)` for already-normalized absolute inputs
(the only way `PackagingContext._mkdirp` calls it): compare nonempty
components, go up with `..` for the unshared part of `start`, then down the
unshared part of `path`; the empty result is `'.'`. -/
def pyRelpath (path start : String) : String :=
  let pl := comps path
  let sl := comps start
  let i := commonPrefixLen sl pl
  let rel := List.replicate (sl.length - i) ".." ++ pl.drop i
  if rel = [] then "." else String.intercalate "/" rel

/-- The normalized components of a path: empty components and `.` components
do not change which directory entry a POSIX path names, so two paths with
the same normalized components denote the same filesystem object. -/
def normComps (s : String) : List String :=
  ((splitOnChar '/' s.data).map String.mk).filter (fun c => c ≠ "" && c ≠ ".")

/-! ### The CPython 2.7 string-keyed `dict`

`PackagingContext._write_control` builds a plain Python 2 `dict` and then
iterates it (`for k in rules`), so the order of the rendered control fields
is the hash table's slot order, not the insertion order.  The following is a
faithful model of CPython 2.7's 64-bit build: `string_hash` from
`stringobject.c`, and `lookdict` probing / `insertdict` / `dictresize` from
`dictobject.c` (no deletions ever happen here, so dummy entries are not
modelled). -/

/-- CPython 2.7 (64-bit, no hash randomization) `string_hash`, as an
unsigned 64-bit value: `x = s[0] << 7; for c in s: x = (1000003*x) ^ c;
x ^= len(s); if x == -1: x = -2`. -/
def pyHashStr (s : String) : Nat :=
  match s.data with
  | [] => 0
  | c :: _ =>
    let m := 2 ^ 64
    let x0 := (c.toNat * 128) % m
    let x1 := s.data.foldl (fun x ch => ((1000003 * x) % m) ^^^ ch.toNat) x0
    let x2 := x1 ^^^ s.data.length
    if x2 = m - 1 then m - 2 else x2

/-- One hash-table slot: `none` is an empty slot.  The table is polymorphic
in the value type (keys are always strings, and probing never inspects a
value); the program instantiates it at `String`. -/
abbrev Slot (β : Type) := Option (String × β)

/-- CPython 2.7 `lookdict` probe sequence: start at `hash & mask`, then
`i = i*5 + perturb + 1` (unmasked, mod 2^64) with `perturb >>= 5`, indexing
with `i & mask`; stop at an empty slot or a slot holding the key.  `fuel`
bounds the search; the concrete runs in this file never exhaust it. -/
def findslotAux {β : Type} (slots : List (Slot β)) (key : String) :
    Nat → Nat → Nat → Nat
  | 0, i, _ => i % slots.length
  | fuel + 1, i, perturb =>
    let n := slots.length
    let s := i % n
    match slots.getD s none with
    | none => s
    | some kv =>
      if kv.1 = key then s
      else findslotAux slots key fuel ((5 * i + perturb + 1) % 2 ^ 64) (perturb / 32)

/-- Find the slot for `key` with hash `h` (table sizes are powers of two, so
`i % n` is `i & mask`). -/
def findslot {β : Type} (slots : List (Slot β)) (key : String) (h : Nat) : Nat :=
  findslotAux slots key 64 (h % slots.length) h

/-- The Python 2 dict state: open-addressing table plus the number of used
slots (with no deletions, `ma_fill = ma_used`). -/
structure PyDict (β : Type) where
  slots : List (Slot β)
  used : Nat
  deriving DecidableEq

/-- `_PyDict_NewPresized` / dict literal start: an empty table of `n` slots. -/
def pyDictEmpty (β : Type) (n : Nat) : PyDict β := ⟨List.replicate n none, 0⟩

/-- `dictresize`'s size computation: `newsize = 8; while newsize <= minused:
newsize <<= 1` (fuel-bounded doubling). -/
def growSizeAux (minused : Nat) : Nat → Nat → Nat
  | 0, acc => acc
  | fuel + 1, acc => if acc ≤ minused then growSizeAux minused fuel (acc * 2) else acc

/-- `dictresize`'s new table size for a given `minused`. -/
def growSize (minused : Nat) : Nat := growSizeAux minused 32 8

/-- `insertdict_clean`: used by `dictresize` when reinserting entries known to
be absent from the new table. -/
def insertClean {β : Type} (d : PyDict β) (k : String) (v : β) : PyDict β :=
  let s := findslot d.slots k (pyHashStr k)
  ⟨d.slots.set s (some (k, v)), d.used + 1⟩

/-- One step of `dictresize`'s reinsertion loop: occupied slots are
reinserted, empty ones skipped. -/
def resizeStep {β : Type} (acc : PyDict β) (e : Slot β) : PyDict β :=
  match e with
  | some kv => insertClean acc kv.1 kv.2
  | none => acc

/-- `dictresize`: allocate `growSize (4 * used)` slots and reinsert every
occupied entry of the old table in slot order. -/
def dictResize {β : Type} (d : PyDict β) : PyDict β :=
  let newsize := growSize (4 * d.used)
  d.slots.foldl resizeStep ⟨List.replicate newsize none, 0⟩

/-- The store half of `PyDict_SetItem`: probe, store, bump `used` when the
key is new, and report whether it was new. -/
def setitemCore {β : Type} (d : PyDict β) (k : String) (v : β) : PyDict β × Bool :=
  let s := findslot d.slots k (pyHashStr k)
  let isnew := (d.slots.getD s none).isNone
  (⟨d.slots.set s (some (k, v)), if isnew then d.used + 1 else d.used⟩, isnew)

/-- `PyDict_SetItem`: store, and resize when the insert was of a new key and
the fill reaches two thirds (`fill*3 >= size*2`). -/
def setitem {β : Type} (d : PyDict β) (k : String) (v : β) : PyDict β :=
  let r := setitemCore d k v
  if r.2 && 2 * r.1.slots.length ≤ 3 * r.1.used then dictResize r.1 else r.1

/-- A sequence of `d[k] = v` statements, first to last. -/
def insertAll {β : Type} (d : PyDict β) (ps : List (String × β)) : PyDict β :=
  ps.foldl (fun acc kv => setitem acc kv.1 kv.2) d

/-- Iteration order of a Python 2 dict: occupied slots in table order. -/
def pyDictItems {β : Type} (d : PyDict β) : List (String × β) :=
  d.slots.filterMap id

/-! ### Data model -/

/-- The `package.architectures` attribute as `_write_control` type-checks it:
`isinstance(..., list)`, `isinstance(..., tuple)`, `isinstance(..., str)`, or
anything else (`None`), which triggers the host-architecture probe. -/
inductive ArchSpec
  | listv (l : List String)
  | tuplev (l : List String)
  | strv (s : String)
  | nonev

/-- A declarative rule.  `symlink` is `giftwrap.rules.symlink_rule.SymlinkRule`;
`makeDataDir` is a rule whose `apply` calls `context.make_data_dir`. -/
inductive Rule
  | symlink (source linkname : String)
  | makeDataDir (path : String) (user group : Option String)

/-- The Package Description, with exactly the attributes
`packaging_context.py` reads. -/
structure Package where
  name : String
  version : String
  architectures : ArchSpec
  maintainer_name : String
  maintainer_email : String
  description : String
  long_description : String
  homepage : Option String
  /-- `package.section` (`section` is a Lean keyword). -/
  sectionv : Option String
  priority : Option String
  depends : Option (List String)
  conflicts : Option (List String)
  copyright : String
  rules : List Rule

/-- A staged directory tree, for modelling `os.walk` over the staged `/etc`
directory: entries are in the order the OS lists them. -/
inductive FsTree
  | file
  | dir (entries : List (String × FsTree))

/-- One recorded filesystem / subprocess side effect. -/
inductive FsEvent
  | mkdirTree (path : String)
  | mkdirOne (path : String)
  | chmod (path : String) (mode : Nat)
  | symlinkAt (target linkpath : String)
  | writeFile (path : String) (content : String)
  | writeLines (path : String) (lines : List String) (mode : Option Nat)
  | printLine (s : String)
  | runCmd (args : List String)
  | targzCreate (tarball root : String)
  | arCreate (dest : String) (memberPaths : List String)
  deriving DecidableEq

/-- The mutable `PackagingContext` state: the scratch root chosen by
`tempfile.mkdtemp()` plus the two per-build lists. -/
structure Ctx where
  root : String
  postinst_commands : List String
  symlinks : List (String × String)

/-- `self._data_path = os.path.join(self._root_path, 'data')`. -/
def ctxData (ctx : Ctx) : String := pyJoin ctx.root "data"

/-- `self._control_path = os.path.join(self._root_path, 'control')`. -/
def ctxControl (ctx : Ctx) : String := pyJoin ctx.root "control"

/-- `PackagingContext.__init__`: makes the scratch root and the `data` and
`control` subdirectories unconditionally.  Note that `__init__` receives no
package, so no Package Description validation can (or does) happen before
these directories are created. -/
def ctxInit (root : String) : Ctx × List FsEvent :=
  (⟨root, [], []⟩,
   [FsEvent.mkdirTree root,
    FsEvent.mkdirOne (pyJoin root "data"),
    FsEvent.mkdirOne (pyJoin root "control")])

/-- `PackagingContext.control_path`. -/
def control_path (ctx : Ctx) (filename : String) : String :=
  pyJoin (ctxControl ctx) filename

/-- The chmod loop of `PackagingContext._mkdirp`: walk the `'/'`-split
components of `os.path.relpath(path, self._data_path)`, rebuilding the
absolute path with `os.path.join` and chmodding every step. -/
def chmodFold (abs : String) (perms : Nat) : List String → List FsEvent
  | [] => []
  | d :: ds =>
    let abs2 := pyJoin abs d
    FsEvent.chmod abs2 perms :: chmodFold abs2 perms ds

/-- `PackagingContext._mkdirp(path, permissions)`: `mkdirp(path)` (the
recursive-make helper from `giftwrap.utilities`, recorded as one event), then
chmod every component of the path relative to the data directory. -/
def mkdirpEvents (dataPath path : String) (permissions : Nat) : List FsEvent :=
  let subdirs := (splitOnChar '/' (pyRelpath path dataPath).data).map String.mk
  FsEvent.mkdirTree path :: chmodFold dataPath permissions subdirs

/-- `PackagingContext.data_path(path, permissions)`: join under the data tree
after `path.lstrip('/')`, ensure the parent directory exists, return the
absolute staging path (with the event trace of `_mkdirp`). -/
def data_path (ctx : Ctx) (path : String) (permissions : Nat) :
    String × List FsEvent :=
  let abs := pyJoin (ctxData ctx) (String.mk (lstripSlash path.data))
  (abs, mkdirpEvents (ctxData ctx) (pyDirname abs) permissions)

/-- `PackagingContext.data_dir_path(path, permissions, make_if_missing)`. -/
def data_dir_path (ctx : Ctx) (path : String) (permissions : Nat)
    (make_if_missing : Bool) : String × List FsEvent :=
  let abs := pyJoin (ctxData ctx) (String.mk (lstripSlash path.data))
  (abs, if make_if_missing then mkdirpEvents (ctxData ctx) abs permissions else [])

/-- `PackagingContext.make_data_dir(path, user, group)`: create the data
directory and, when `user` is given, append
`'chown -R %s %s' % (user[:group], path)` to `self.postinst_commands`. -/
def make_data_dir (ctx : Ctx) (path : String) (user group : Option String) :
    Ctx × String × List FsEvent :=
  let r := data_dir_path ctx path 0o755 true
  let ctx2 :=
    match user with
    | some u =>
      { ctx with
        postinst_commands := ctx.postinst_commands ++
          ["chown -R " ++ (match group with
            | some g => u ++ ":" ++ g
            | none => u) ++ " " ++ path] }
    | none => ctx
  (ctx2, r.1, r.2)

/-- `SymlinkRule.apply(package, context)`: ensure the directory of the
symlink source exists inside the data tree, then `os.symlink` the absolute
staged source onto `os.path.basename(self._linkname)` — a path relative to
the process's current working directory.  Nothing is recorded in
`context.symlinks`. -/
def symlinkRuleApply (ctx : Ctx) (source linkname : String) :
    Ctx × List FsEvent :=
  let r := data_dir_path ctx (pyDirname source) 0o755 true
  (ctx, r.2 ++ [FsEvent.symlinkAt (pyJoin r.1 (pyBasename source)) (pyBasename linkname)])

/-- Dispatch of `rule.apply(package, self)` over the modelled rule variants. -/
def applyRule (ctx : Ctx) : Rule → Ctx × List FsEvent
  | .symlink s l => symlinkRuleApply ctx s l
  | .makeDataDir p u g =>
    let r := make_data_dir ctx p u g
    (r.1, r.2.2)

/-- `for rule in package.rules: rule.apply(package, self)`. -/
def applyRules (ctx : Ctx) : List Rule → Ctx × List FsEvent
  | [] => (ctx, [])
  | r :: rs =>
    let a := applyRule ctx r
    let b := applyRules a.1 rs
    (b.1, a.2 ++ b.2)

/-! ### Control metadata rendering -/

/-- Modelled from the spec: `giftwrap.utilities.string_ending_in_period` is
not under `src/`; the spec says the short and long descriptions are "forced
to end with a period" with "periods appended only if absent". -/
def string_ending_in_period (s : String) : String :=
  if s.data.getLast? = some '.' then s else s ++ "."

/-- The architecture-resolution branch of `_write_control`: a list is used
as is, a tuple becomes a list, a single string becomes a one-element list;
anything else invokes `run(['dpkg', '--print-architecture'], vital=False)`,
whose output (`none` when the probe fails or is unavailable — modelled from
the spec, since `giftwrap.utilities.run` is not under `src/`) is stripped,
with the literal `'any'` as fallback. -/
def resolveArchitectures : ArchSpec → Option String → List String
  | .listv l, _ => l
  | .tuplev l, _ => l
  | .strv s, _ => [s]
  | .nonev, some out => [pyStrip out]
  | .nonev, none => ["any"]

/-- The insertion sequence of the `rules` dict of `_write_control`, in source
order: the five unconditional fields of the dict literal, then each
conditional `rules[...] = ...` assignment exactly under the source's
conditions.  (All eleven keys are distinct, so a sequence of `setitem`s is
exactly this pair list folded into the table.) -/
def controlPairs (pkg : Package) (probe : Option String) (control_binary : Bool) :
    List (String × String) :=
  let architectures := resolveArchitectures pkg.architectures probe
  let architectures :=
    if !control_binary && !architectures.contains "source"
    then architectures ++ ["source"] else architectures
  [("Source", pkg.name),
   ("Version", pkg.version),
   ("Architecture", String.intercalate " " architectures),
   ("Maintainer", pkg.maintainer_name ++ " <" ++ pkg.maintainer_email ++ ">"),
   ("Description",
    string_ending_in_period pkg.description ++ "\n " ++
    string_ending_in_period pkg.long_description)]
  ++ (match pkg.homepage with
      | some h => [("Homepage", h)]
      | none => [])
  ++ (if control_binary then [("Package", pkg.name)] else [])
  ++ (match pkg.sectionv with
      | some s => [("Section", s)]
      | none => [])
  ++ (match pkg.priority with
      | some s => [("Priority", s)]
      | none => [])
  ++ (match pkg.depends with
      | some l => if l.length > 0 then [("Depends", String.intercalate ", " l)] else []
      | none => [])
  ++ (match pkg.conflicts with
      | some l => if l.length > 0 then [("Conflicts", String.intercalate ", " l)] else []
      | none => [])

/-- The `rules` dict of `_write_control`: the Python 2 dict literal is
presized for five entries (still the minimum table size, 8 slots); the
entries and conditional assignments are inserted in source order. -/
def controlDict (pkg : Package) (probe : Option String) (control_binary : Bool) :
    PyDict String :=
  insertAll (pyDictEmpty String 8) (controlPairs pkg probe control_binary)

/-- `['%s: %s' % (k, rules[k]) for k in rules]`: the rendered control lines,
in the dict's iteration order. -/
def controlLines (pkg : Package) (probe : Option String) : List String :=
  (pyDictItems (controlDict pkg probe true)).map (fun kv => kv.1 ++ ": " ++ kv.2)

/-- `_write_control`: render the lines and write them to the `control`
control file (`write_lines_to_file` with no permissions argument). -/
def write_control (ctx : Ctx) (pkg : Package) (probe : Option String) :
    List FsEvent :=
  [FsEvent.writeLines (control_path ctx "control") (controlLines pkg probe) none]

/-- The line list built by `_write_postinst`: the fixed skeleton with one
8-space-indented line per accumulated post-install command inside the
`configure)` branch. -/
def postinstLines (cmds : List String) : List String :=
  ["#!/bin/sh",
   "# postinst script generated by giftwrap.",
   "set -e",
   "case \"$1\" in",
   "    configure)"]
  ++ cmds.map (fun x => "        " ++ x)
  ++ ["    ;;",
      "",
      "    abort-upgrade|abort-remove|abort-deconfigure)",
      "    ;;",
      "",
      "    *)",
      "        echo \"postinst called with unknown argument `$1`\" >&2",
      "        exit 1",
      "    ;;",
      "esac",
      "",
      "exit 0"]

/-- `_write_postinst`: write the skeleton to the `postinst` control file with
mode `0755` (executable). -/
def write_postinst (ctx : Ctx) : List FsEvent :=
  [FsEvent.writeLines (control_path ctx "postinst")
    (postinstLines ctx.postinst_commands) (some 0o755)]

/-- The `configure)` branch of a rendered postinst: the lines strictly
between the `    configure)` case label and the `    ;;` terminator that
follows it. -/
def configureBranch (lines : List String) : List String :=
  ((lines.dropWhile (fun l => l ≠ "    configure)")).drop 1).takeWhile
    (fun l => l ≠ "    ;;")

/-- `_write_copyright`: `write_to_file(package.copyright,
self.data_path('/usr/share/doc/%s/copyright' % package.name))` — the
`data_path` call stages the parent directories as a side effect. -/
def write_copyright (ctx : Ctx) (pkg : Package) : List FsEvent :=
  let r := data_path ctx ("/usr/share/doc/" ++ pkg.name ++ "/copyright") 0o755
  r.2 ++ [FsEvent.writeFile r.1 pkg.copyright]

/-- The recursive `os.walk` file collection under the staged `/etc`
directory, as the `'/'`-components of each file's path relative to it: each
directory contributes its regular files first (in listing order), and is
then walked top-down into its subdirectories in listing order — the order
of `os.walk` with the OS listing order taken from the tree.  Fuel bounds
the depth; every concrete tree in this file is shallower. -/
def walkRelFiles : Nat → List String → FsTree → List (List String)
  | 0, _, _ => []
  | _ + 1, _, .file => []
  | fuel + 1, pre, .dir entries =>
    (entries.filterMap fun e =>
      match e.2 with
      | .file => some (pre ++ [e.1])
      | .dir _ => none)
    ++ (entries.map fun e =>
         match e.2 with
         | .dir _ => walkRelFiles fuel (pre ++ [e.1]) e.2
         | .file => []).foldr (fun a b => a ++ b) []

/-- The conffiles line list of `_write_conffiles`: one line
`'/etc/%s' % os.path.relpath(os.path.join(root, rel_file), etc_path)` per
regular file found by walking the staged `/etc` directory; `os.walk` of a
missing directory (the `data_dir_path(..., make_if_missing=False)` result
when nothing was staged under `/etc`) yields nothing. -/
def conffilesLines (etcTree : Option FsTree) : List String :=
  match etcTree with
  | none => []
  | some t => (walkRelFiles 100 [] t).map
      (fun cs => "/etc/" ++ String.intercalate "/" cs)

/-- `_write_conffiles`: write the collected lines to the `conffiles` control
file.  The staged tree under `/etc` at write time is supplied as a
parameter (the event-trace model does not materialize a filesystem). -/
def write_conffiles (ctx : Ctx) (etcTree : Option FsTree) : List FsEvent :=
  [FsEvent.writeLines (control_path ctx "conffiles") (conffilesLines etcTree) none]

/-- `_write_symlinks`: for every recorded `(source, linkname)` pair, print
`'%s <- %s (%s)'` and `os.symlink(source, os.path.join(self._data_path,
linkname))`.  (The `if self.symlinks:` guard is redundant for the trace:
an empty list produces no events.) -/
def write_symlinks (ctx : Ctx) : List FsEvent :=
  (ctx.symlinks.map fun sl =>
    let lname := pyJoin (ctxData ctx) sl.2
    [FsEvent.printLine (sl.1 ++ " <- " ++ lname ++ " (" ++ sl.2 ++ ")"),
     FsEvent.symlinkAt sl.1 lname]).foldr (fun a b => a ++ b) []

/-- `PackagingContext.build`: reset `self.postinst_commands` and
`self.symlinks`, apply every rule in order, then write the five control
artifacts in source order. -/
def build (ctx : Ctx) (pkg : Package) (probe : Option String)
    (etcTree : Option FsTree) : Ctx × List FsEvent :=
  let ctx0 : Ctx := { ctx with postinst_commands := [], symlinks := [] }
  let a := applyRules ctx0 pkg.rules
  let ctx1 := a.1
  (ctx1,
   a.2 ++ write_control ctx1 pkg probe ++ write_postinst ctx1 ++
   write_copyright ctx1 pkg ++ write_conffiles ctx1 etcTree ++
   write_symlinks ctx1)

/-! ### Packing -/

/-- `('rm -f %s' % destination_path).split(' ')`. -/
def rmArgs (destination_path : String) : List String :=
  (splitOnChar ' ' ("rm -f " ++ destination_path).data).map String.mk

/-- `PackagingContext.pack` (without the optional Lintian step): compress the
control and data trees, write the `debian-binary` marker, remove any
pre-existing file at the destination, and create the `ar` archive whose
member files are, in this order, `debian-binary`, the control tarball, the
data tarball.  `targz`, `run` and `ar_create` live in `giftwrap.utilities`
(not under `src/`) and are recorded as events whose meaning is modelled
from the spec. -/
def pack (ctx : Ctx) (destination_path : String) : List FsEvent :=
  let data_tarball_path := pyJoin ctx.root "data.tar.gz"
  let control_tarball_path := pyJoin ctx.root "control.tar.gz"
  let debian_binary_path := pyJoin ctx.root "debian-binary"
  [FsEvent.targzCreate control_tarball_path (ctxControl ctx),
   FsEvent.targzCreate data_tarball_path (ctxData ctx),
   FsEvent.writeFile debian_binary_path "2.0\n",
   FsEvent.runCmd (rmArgs destination_path),
   FsEvent.arCreate destination_path
     [debian_binary_path, control_tarball_path, data_tarball_path]]

/-- The content of a packed archive member. -/
inductive BlobContent
  | literal (s : String)
  | gzTarOfTree (rootPath : String)
  deriving DecidableEq

/-- The content the scratch filesystem holds at `p` after a trace of events
(later events win): a `writeFile` stores a literal, a `targzCreate` stores
the gzip-compressed tarball of a tree. -/
def fileContentIn : List FsEvent → String → Option BlobContent
  | [], _ => none
  | e :: rest, p =>
    match fileContentIn rest p with
    | some c => some c
    | none =>
      match e with
      | .writeFile q s => if q = p then some (.literal s) else none
      | .targzCreate q root => if q = p then some (.gzTarOfTree root) else none
      | _ => none

/-- Modelled from the spec: `giftwrap.utilities.ar_create(archive_path,
paths)` is not under `src/`; per the spec the destination becomes an `ar`
archive whose members are the given files **in the given order**, each member
named by its file name and holding that file's bytes. -/
def arMembersOf (evs : List FsEvent) (paths : List String) :
    List (String × Option BlobContent) :=
  paths.map (fun p => (pyBasename p, fileContentIn evs p))

/-! ### Value parametricity of the dict model

Probing inspects keys only, so mapping a function over every stored value
commutes with the whole table construction.  This lets the slot order be
computed once with small concrete tags as values and then transferred to the
actual (symbolic) rendered field values. -/

/-- Map a function over the value of a slot. -/
def mapSlot {β γ : Type} (f : β → γ) : Slot β → Slot γ :=
  Option.map (fun kv => (kv.1, f kv.2))

/-- Map a function over every stored value of a dict. -/
def mapDict {β γ : Type} (f : β → γ) (d : PyDict β) : PyDict γ :=
  ⟨d.slots.map (mapSlot f), d.used⟩

/-- Attach values out of `vals` to a tagged key list: tag `i` becomes value
`vals[i]` (with `""` out of range). -/
def withVals (vals : List String) (ps : List (String × Nat)) :
    List (String × String) :=
  ps.map (fun kv => (kv.1, vals.getD kv.2 ""))

/-! ### Concrete fixtures -/

/-- A minimal concrete Package Description used by several statements: every
optional field absent. -/
def pkgExample : Package :=
  { name := "app", version := "1.0", architectures := .strv "amd64",
    maintainer_name := "Jane Doe", maintainer_email := "jane@example.com",
    description := "A tool", long_description := "Does things",
    homepage := none, sectionv := none, priority := none,
    depends := none, conflicts := none, copyright := "(c) 2014 Jane Doe",
    rules := [] }

/-- Tagged key lists describing the insertion sequence of `controlPairs` for
each presence pattern of the optional fields; the tag of a key is the
position of its rendered value in the pattern's value list (`Source` and
`Package` share tag 0: both carry the package name). -/
def minIdx : List (String × Nat) :=
  [("Source", 0), ("Version", 1), ("Architecture", 2), ("Maintainer", 3),
   ("Description", 4), ("Package", 0)]

/-- `minIdx` with `Homepage` present (inserted before `Package`). -/
def homepageIdx : List (String × Nat) :=
  [("Source", 0), ("Version", 1), ("Architecture", 2), ("Maintainer", 3),
   ("Description", 4), ("Homepage", 5), ("Package", 0)]

/-- `minIdx` with `Section` present. -/
def sectionIdx : List (String × Nat) :=
  [("Source", 0), ("Version", 1), ("Architecture", 2), ("Maintainer", 3),
   ("Description", 4), ("Package", 0), ("Section", 5)]

/-- `minIdx` with `Priority` present. -/
def priorityIdx : List (String × Nat) :=
  [("Source", 0), ("Version", 1), ("Architecture", 2), ("Maintainer", 3),
   ("Description", 4), ("Package", 0), ("Priority", 5)]

/-- `minIdx` with `Depends` present. -/
def dependsIdx : List (String × Nat) :=
  [("Source", 0), ("Version", 1), ("Architecture", 2), ("Maintainer", 3),
   ("Description", 4), ("Package", 0), ("Depends", 5)]

/-- `minIdx` with `Conflicts` present. -/
def conflictsIdx : List (String × Nat) :=
  [("Source", 0), ("Version", 1), ("Architecture", 2), ("Maintainer", 3),
   ("Description", 4), ("Package", 0), ("Conflicts", 5)]

/-- The insertion sequence with every conditional field present. -/
def fullIdx : List (String × Nat) :=
  [("Source", 0), ("Version", 1), ("Architecture", 2), ("Maintainer", 3),
   ("Description", 4), ("Homepage", 5), ("Package", 0), ("Section", 6),
   ("Priority", 7), ("Depends", 8), ("Conflicts", 9)]

/-! ### Helper lemmas -/

theorem getD_map_slots {β γ : Type} (f : β → γ) (l : List (Slot β)) (s : Nat) :
    (l.map (mapSlot f)).getD s none = mapSlot f (l.getD s none) := by
  induction l generalizing s with
  | nil => simp [List.getD, mapSlot]
  | cons a t ih =>
    cases s with
    | zero => simp [List.getD]
    | succ n => simpa [List.getD] using ih n

theorem findslotAux_map {β γ : Type} (f : β → γ) (slots : List (Slot β))
    (key : String) (fuel : Nat) : ∀ i perturb,
    findslotAux (slots.map (mapSlot f)) key fuel i perturb =
      findslotAux slots key fuel i perturb := by
  induction fuel with
  | zero => intro i perturb; simp [findslotAux]
  | succ fuel ih =>
    intro i perturb
    rw [findslotAux, findslotAux, List.length_map, getD_map_slots]
    cases slots.getD (i % slots.length) none with
    | none => rfl
    | some kv =>
      show (if kv.1 = key then _ else _) = _
      by_cases h : kv.1 = key
      · simp [h]
      · simp only [if_neg h, ih]

theorem findslot_map {β γ : Type} (f : β → γ) (slots : List (Slot β))
    (key : String) (h : Nat) :
    findslot (slots.map (mapSlot f)) key h = findslot slots key h := by
  rw [findslot, findslot, List.length_map, findslotAux_map]

theorem insertClean_map {β γ : Type} (f : β → γ) (d : PyDict β) (k : String)
    (v : β) : insertClean (mapDict f d) k (f v) = mapDict f (insertClean d k v) := by
  show (⟨(mapDict f d).slots.set (findslot (mapDict f d).slots k (pyHashStr k))
          (some (k, f v)), (mapDict f d).used + 1⟩ : PyDict γ) = _
  rw [show (mapDict f d).slots = d.slots.map (mapSlot f) from rfl, findslot_map]
  simp [mapDict, mapSlot, insertClean]

theorem pyDictEmpty_map {β γ : Type} (f : β → γ) (n : Nat) :
    mapDict f (pyDictEmpty β n) = pyDictEmpty γ n := by
  simp [mapDict, pyDictEmpty, List.map_replicate, mapSlot]

theorem resizeStep_map {β γ : Type} (f : β → γ) (acc : PyDict β) (e : Slot β) :
    resizeStep (mapDict f acc) (mapSlot f e) = mapDict f (resizeStep acc e) := by
  cases e with
  | none => rfl
  | some kv => exact insertClean_map f acc kv.1 kv.2

theorem dictResize_fold_map {β γ : Type} (f : β → γ) (l : List (Slot β)) :
    ∀ acc : PyDict β,
    (l.map (mapSlot f)).foldl resizeStep (mapDict f acc) =
      mapDict f (l.foldl resizeStep acc) := by
  induction l with
  | nil => intro acc; rfl
  | cons a t ih =>
    intro acc
    rw [List.map_cons, List.foldl_cons, List.foldl_cons, resizeStep_map]
    exact ih (resizeStep acc a)

theorem dictResize_map {β γ : Type} (f : β → γ) (d : PyDict β) :
    dictResize (mapDict f d) = mapDict f (dictResize d) := by
  show (d.slots.map (mapSlot f)).foldl resizeStep
      ⟨List.replicate (growSize (4 * d.used)) none, 0⟩ = _
  rw [show (⟨List.replicate (growSize (4 * d.used)) none, 0⟩ : PyDict γ) =
        mapDict f ⟨List.replicate (growSize (4 * d.used)) none, 0⟩ by
      simp [mapDict, mapSlot]]
  exact dictResize_fold_map f d.slots _

theorem setitemCore_map {β γ : Type} (f : β → γ) (d : PyDict β) (k : String)
    (v : β) : setitemCore (mapDict f d) k (f v) =
      (mapDict f (setitemCore d k v).1, (setitemCore d k v).2) := by
  simp only [setitemCore]
  rw [show (mapDict f d).slots = d.slots.map (mapSlot f) from rfl, findslot_map,
    getD_map_slots]
  cases d.slots.getD (findslot d.slots k (pyHashStr k)) none with
  | none => simp [mapDict, mapSlot]
  | some kv => simp [mapDict, mapSlot]

theorem setitem_map {β γ : Type} (f : β → γ) (d : PyDict β) (k : String)
    (v : β) : setitem (mapDict f d) k (f v) = mapDict f (setitem d k v) := by
  simp only [setitem]
  rw [setitemCore_map]
  show (if (setitemCore d k v).2 &&
        2 * (mapDict f (setitemCore d k v).1).slots.length ≤
          3 * (mapDict f (setitemCore d k v).1).used
      then dictResize (mapDict f (setitemCore d k v).1)
      else mapDict f (setitemCore d k v).1) = _
  have hl : (mapDict f (setitemCore d k v).1).slots.length =
      (setitemCore d k v).1.slots.length := by simp [mapDict]
  have hu : (mapDict f (setitemCore d k v).1).used = (setitemCore d k v).1.used := rfl
  rw [hl, hu]
  by_cases hc : ((setitemCore d k v).2 &&
      decide (2 * (setitemCore d k v).1.slots.length ≤
        3 * (setitemCore d k v).1.used)) = true
  · rw [if_pos hc, if_pos hc]
    exact dictResize_map f (setitemCore d k v).1
  · rw [if_neg hc, if_neg hc]

theorem insertAll_map {β γ : Type} (f : β → γ) (ps : List (String × β)) :
    ∀ d : PyDict β,
    insertAll (mapDict f d) (ps.map (fun kv => (kv.1, f kv.2))) =
      mapDict f (insertAll d ps) := by
  induction ps with
  | nil => intro d; rfl
  | cons a t ih =>
    intro d
    show insertAll (setitem (mapDict f d) a.1 (f a.2)) (t.map _) = _
    rw [setitem_map]
    exact ih (setitem d a.1 a.2)

theorem filterMap_id_map_mapSlot {β γ : Type} (f : β → γ) (l : List (Slot β)) :
    (l.map (mapSlot f)).filterMap id =
      (l.filterMap id).map (fun kv => (kv.1, f kv.2)) := by
  induction l with
  | nil => rfl
  | cons a t ih =>
    cases a with
    | none => simpa [mapSlot, List.filterMap_cons] using ih
    | some kv => simpa [mapSlot, List.filterMap_cons] using ih

theorem pyDictItems_map {β γ : Type} (f : β → γ) (d : PyDict β) :
    pyDictItems (mapDict f d) = (pyDictItems d).map (fun kv => (kv.1, f kv.2)) :=
  filterMap_id_map_mapSlot f d.slots

/-- The bridge used by the C2 statements: the items of the control dict built
from `withVals vals ps` are the items of the dict built from the tagged key
list `ps` (a fully concrete computation), with each tag replaced by its
value. -/
theorem items_insertAll_withVals (vals : List String) (ps : List (String × Nat)) :
    pyDictItems (insertAll (pyDictEmpty String 8) (withVals vals ps)) =
      (pyDictItems (insertAll (pyDictEmpty Nat 8) ps)).map
        (fun kv => (kv.1, vals.getD kv.2 "")) := by
  rw [withVals, show pyDictEmpty String 8 =
        mapDict (fun i => vals.getD i "") (pyDictEmpty Nat 8) from
      (pyDictEmpty_map _ 8).symm,
    insertAll_map, pyDictItems_map]

theorem takeWhile_append_cons {α : Type} (p : α → Bool) (l1 : List α) (y : α)
    (rest : List α) (h1 : ∀ x ∈ l1, p x = true) (h2 : p y = false) :
    (l1 ++ y :: rest).takeWhile p = l1 := by
  induction l1 with
  | nil => simp [List.takeWhile_cons, h2]
  | cons a t ih =>
    have ha : p a = true := h1 a (by simp)
    simp only [List.cons_append, List.takeWhile_cons, ha, if_true]
    rw [ih (fun x hx => h1 x (by simp [hx]))]

/-- An 8-space-indented command line is never the 4-space `;;` terminator,
whatever the command is. -/
theorem indented_ne_semi (c : String) : ("        " ++ c) ≠ "    ;;" := by
  intro h
  have h2 := congrArg String.length h
  rw [String.length_append] at h2
  rw [show ("        " : String).length = 8 from rfl,
    show ("    ;;" : String).length = 6 from rfl] at h2
  omega

theorem pyJoin_eq (a b : String) (h1 : a.data ≠ []) (h2 : a.data.getLast? ≠ some '/')
    (h3 : b.data.head? ≠ some '/') : pyJoin a b = a ++ "/" ++ b := by
  unfold pyJoin
  rw [if_neg h3, if_neg h1, if_neg h2]

theorem append_right_ne (a : String) {x y : String} (h : x.data ≠ y.data) :
    a ++ x ≠ a ++ y := by
  intro he
  have h2 := congrArg String.data he
  rw [String.data_append, String.data_append] at h2
  exact h (List.append_cancel_left h2)

theorem splitOnChar_ne_nil (sep : Char) (l : List Char) : splitOnChar sep l ≠ [] := by
  cases l with
  | nil => simp [splitOnChar]
  | cons c t =>
    rw [splitOnChar]
    by_cases hc : c = sep
    · simp [hc]
    · simp only [if_neg hc]
      cases splitOnChar sep t with
      | nil => simp
      | cons h1 t1 => simp

theorem splitOnChar_append (sep : Char) (a b : List Char) :
    splitOnChar sep (a ++ sep :: b) = splitOnChar sep a ++ splitOnChar sep b := by
  induction a with
  | nil => simp [splitOnChar]
  | cons c t ih =>
    rw [List.cons_append, splitOnChar, ih, splitOnChar]
    by_cases hc : c = sep
    · simp [hc]
    · simp only [if_neg hc]
      cases hsplit : splitOnChar sep t with
      | nil => exact absurd hsplit (splitOnChar_ne_nil sep t)
      | cons h1 t1 => simp

theorem splitOnChar_no_sep (sep : Char) (l : List Char) (h : ∀ c ∈ l, c ≠ sep) :
    splitOnChar sep l = [l] := by
  induction l with
  | nil => rfl
  | cons c t ih =>
    rw [splitOnChar, ih (fun x hx => h x (List.mem_cons_of_mem c hx))]
    simp [h c (List.mem_cons_self c t)]

theorem rmArgs_eq (dest : String) (h : ∀ c ∈ dest.data, c ≠ ' ') :
    rmArgs dest = ["rm", "-f", dest] := by
  unfold rmArgs
  rw [show ("rm -f " ++ dest).data =
      ['r', 'm'] ++ ' ' :: (['-', 'f'] ++ ' ' :: dest.data) by
    simp [String.data_append]]
  rw [splitOnChar_append, splitOnChar_append, splitOnChar_no_sep ' ' dest.data h]
  rfl

theorem commonPrefixLen_self (l : List String) : commonPrefixLen l l = l.length := by
  induction l with
  | nil => rfl
  | cons a t ih => simp [commonPrefixLen, ih]

theorem pyRelpath_self (s : String) : pyRelpath s s = "." := by
  simp [pyRelpath, commonPrefixLen_self]

/-- `posixpath.basename` of a path formed by appending a slash-free name to
any prefix ending in `/` is that name. -/
theorem pyBasename_append (root x : String) (hx : ∀ c ∈ x.data, c ≠ '/') :
    pyBasename (root ++ "/" ++ x) = x := by
  unfold pyBasename basenameChars
  rw [show (root ++ "/" ++ x).data = root.data ++ '/' :: x.data by
    simp [String.data_append]]
  rw [List.reverse_append,
    show ('/' :: x.data).reverse = x.data.reverse ++ ['/'] by simp,
    List.append_assoc,
    show (['/'] : List Char) ++ root.data.reverse = '/' :: root.data.reverse from rfl]
  rw [takeWhile_append_cons _ _ _ _
    (fun c hc => decide_eq_true (hx c (List.mem_reverse.mp hc))) (by decide)]
  rw [List.reverse_reverse]

theorem dirnameHead_append (d q : List Char) (hq2 : ∀ c ∈ q, c ≠ '/') :
    dirnameHead ((d ++ ['/']) ++ q) = d ++ ['/'] := by
  unfold dirnameHead
  rw [show ((d ++ ['/']) ++ q).reverse = q.reverse ++ '/' :: d.reverse by simp,
    takeWhile_append_cons _ _ _ _
      (fun x hx => decide_eq_true (hq2 x (List.mem_reverse.mp hx))) (by decide),
    List.length_reverse,
    show ((d ++ ['/']) ++ q).length - q.length = (d ++ ['/']).length by
      simp; omega]
  exact List.take_left _ _

/-- `posixpath.dirname` of a path formed by joining a slash-free nonempty
name under a nonempty directory path not itself ending in a slash is that
directory path. -/
theorem pyDirname_append (d q : String) (hq2 : ∀ c ∈ q.data, c ≠ '/')
    (hd1 : d.data ≠ []) (hd2 : d.data.getLast? ≠ some '/') :
    pyDirname (d ++ "/" ++ q) = d := by
  obtain ⟨c, hc1, hc2⟩ : ∃ c, d.data.getLast? = some c ∧ c ≠ '/' := by
    cases hgl : d.data.getLast? with
    | none => exact absurd (List.getLast?_eq_none_iff.mp hgl) hd1
    | some c => exact ⟨c, rfl, fun hc => hd2 (by rw [hgl, hc])⟩
  have hallf : ((d.data ++ ['/']).all fun x => x = '/') = false := by
    cases hall : (d.data ++ ['/']).all fun x => x = '/' with
    | false => rfl
    | true =>
      have hmem : c ∈ d.data ++ ['/'] := by
        refine List.mem_append_left _ ?_
        have h3 := List.getLast?_eq_getLast d.data hd1
        rw [hc1] at h3
        exact (Option.some.inj h3) ▸ List.getLast_mem hd1
      have h4 := List.all_eq_true.mp hall c hmem
      exact absurd (by simpa using h4) hc2
  unfold pyDirname dirnameChars
  rw [show (d ++ "/" ++ q).data = (d.data ++ ['/']) ++ q.data by
    simp [String.data_append]]
  rw [dirnameHead_append d.data q.data hq2]
  rw [if_neg (by simp), if_neg (by simp [hallf])]
  unfold rstripSlashes
  rw [show (d.data ++ ['/']).reverse = '/' :: d.data.reverse by simp]
  rw [show List.dropWhile (fun x => decide (x = '/')) ('/' :: d.data.reverse) =
      List.dropWhile (fun x => decide (x = '/')) d.data.reverse by
    simp [List.dropWhile_cons]]
  have hhead : d.data.reverse.head? = some c := by
    rw [List.head?_reverse, hc1]
  cases hrev3 : d.data.reverse with
  | nil => rw [hrev3] at hhead; cases hhead
  | cons c0 t0 =>
    rw [hrev3] at hhead
    have hc0 : c0 = c := Option.some.inj hhead
    rw [List.dropWhile_cons_of_neg (by simp [hc0]; exact hc2)]
    rw [← hrev3, List.reverse_reverse]

/-! ### Theorems -/

/-- **C3.** Architecture resolution for the control file: a list, tuple or
single string from the description is used verbatim (normalized to a list
and space-joined into the `Architecture` value); otherwise the stripped
output of the host-architecture probe is used, with the literal `"any"` as
fallback when the probe fails or is unavailable.  Concretely: `"amd64"`
yields `Architecture: amd64`; `["amd64","arm64"]` yields
`Architecture: amd64 arm64`; no value with a probe returning `"amd64\n"`
yields `Architecture: amd64`; no value with a missing probe yields
`Architecture: any`. -/
theorem c3_architecture_resolution :
    (∀ l probe, resolveArchitectures (.listv l) probe = l) ∧
    (∀ l probe, resolveArchitectures (.tuplev l) probe = l) ∧
    (∀ s probe, resolveArchitectures (.strv s) probe = [s]) ∧
    (∀ out, resolveArchitectures .nonev (some out) = [pyStrip out]) ∧
    resolveArchitectures .nonev none = ["any"] ∧
    "Architecture: amd64" ∈
      controlLines { pkgExample with architectures := .strv "amd64" } none ∧
    "Architecture: amd64 arm64" ∈
      controlLines { pkgExample with architectures := .listv ["amd64", "arm64"] } none ∧
    "Architecture: amd64" ∈
      controlLines { pkgExample with architectures := .nonev } (some "amd64\n") ∧
    "Architecture: any" ∈
      controlLines { pkgExample with architectures := .nonev } none :=
  ⟨fun _ _ => rfl, fun _ _ => rfl, fun _ _ => rfl, fun _ => rfl, rfl,
   by decide, by decide, by decide, by decide⟩

/-- **C8.** `make_data_dir` with a non-`None` owner appends exactly one
deferred `chown -R owner[:group] path` command to the post-install command
list, where `path` is the directory's absolute path in the data-tree
namespace (the path it will have on the installed system) and the created
staging directory is exactly that path joined under the data root; with no
owner, the context is unchanged.  The symlink list is never touched. -/
theorem c8_make_data_dir_chown :
    (∀ ctx path u g, (make_data_dir ctx path (some u) (some g)).1.postinst_commands
        = ctx.postinst_commands ++ ["chown -R " ++ u ++ ":" ++ g ++ " " ++ path]) ∧
    (∀ ctx path u, (make_data_dir ctx path (some u) none).1.postinst_commands
        = ctx.postinst_commands ++ ["chown -R " ++ u ++ " " ++ path]) ∧
    (∀ ctx path g, (make_data_dir ctx path none g).1 = ctx) ∧
    (∀ ctx path u g, (make_data_dir ctx path u g).2.1
        = pyJoin (ctxData ctx) (String.mk (lstripSlash path.data))) ∧
    (∀ ctx path u g, (make_data_dir ctx path u g).1.symlinks = ctx.symlinks) := by
  refine ⟨fun _ _ _ _ => rfl, fun _ _ _ => rfl, fun _ _ _ => rfl,
    fun _ _ u _ => rfl, fun ctx path u g => ?_⟩
  cases u <;> rfl

/-- **C10.** `build` resets the context's post-install command list and
symlink list to empty before applying any rule, so the entire result of a
build — the final context (hence the postinst commands and recorded
symlinks) and the whole event trace — depends only on the package passed to
that build, never on state accumulated by an earlier build on the same
context. -/
theorem c10_build_resets_state :
    ∀ root pc1 sl1 pc2 sl2 pkg probe etcTree,
      build ⟨root, pc1, sl1⟩ pkg probe etcTree =
      build ⟨root, pc2, sl2⟩ pkg probe etcTree :=
  fun _ _ _ _ _ _ _ _ => rfl

/-- **C6.** The generated postinst is written executable (mode `0755`) with
the fixed `case "$1" in` skeleton: it opens with the `#!/bin/sh` header
lines, its `configure)` branch contains exactly one 8-space-indented line
per accumulated post-install command in order, and after the branch the
fixed tail follows, whose `*)` arm prints an error and runs `exit 1`.
Registering the single command `chown -R svc:svc /opt/app` yields a
configure branch with exactly that one command line. -/
theorem c6_postinst_skeleton :
    (∀ cmds, configureBranch (postinstLines cmds) =
      cmds.map (fun c => "        " ++ c)) ∧
    (∀ cmds, (postinstLines cmds).take 5 =
      ["#!/bin/sh", "# postinst script generated by giftwrap.", "set -e",
       "case \"$1\" in", "    configure)"]) ∧
    (∀ cmds, (postinstLines cmds).drop (5 + cmds.length) =
      ["    ;;", "", "    abort-upgrade|abort-remove|abort-deconfigure)",
       "    ;;", "", "    *)",
       "        echo \"postinst called with unknown argument `$1`\" >&2",
       "        exit 1", "    ;;", "esac", "", "exit 0"]) ∧
    configureBranch (postinstLines ["chown -R svc:svc /opt/app"]) =
      ["        chown -R svc:svc /opt/app"] ∧
    (∀ ctx, write_postinst ctx =
      [FsEvent.writeLines (control_path ctx "postinst")
        (postinstLines ctx.postinst_commands) (some 0o755)]) := by
  refine ⟨?_, fun cmds => rfl, ?_, by decide, fun ctx => rfl⟩
  · intro cmds
    show (cmds.map (fun c => "        " ++ c) ++ ("    ;;" ::
        ["", "    abort-upgrade|abort-remove|abort-deconfigure)", "    ;;",
         "", "    *)",
         "        echo \"postinst called with unknown argument `$1`\" >&2",
         "        exit 1", "    ;;", "esac", "", "exit 0"])).takeWhile
      (fun l => l ≠ "    ;;") = cmds.map (fun c => "        " ++ c)
    refine takeWhile_append_cons _ _ _ _ (fun x hx => ?_) (by decide)
    obtain ⟨c, _, rfl⟩ := List.mem_map.mp hx
    exact decide_eq_true (indented_ne_semi c)
  · intro cmds
    show (["#!/bin/sh", "# postinst script generated by giftwrap.", "set -e",
       "case \"$1\" in", "    configure)"] ++
       (cmds.map (fun c => "        " ++ c) ++
        ["    ;;", "", "    abort-upgrade|abort-remove|abort-deconfigure)",
         "    ;;", "", "    *)",
         "        echo \"postinst called with unknown argument `$1`\" >&2",
         "        exit 1", "    ;;", "esac", "", "exit 0"])).drop
      (5 + cmds.length) = _
    rw [← List.append_assoc]
    exact List.drop_left' (by simp; omega)

/-- **C7.** The conffiles control file lists exactly one `/etc/<relpath>`
line per regular file found by recursively walking the staged `/etc`
directory (files of a directory first, then its subdirectories, in listing
order), and is empty when no `/etc` directory was staged.  In particular a
staged tree holding exactly `app.conf` and `sub/other.conf` yields exactly
the two lines `/etc/app.conf` and `/etc/sub/other.conf`, and the rendered
lines are written to the `conffiles` control file. -/
theorem c7_conffiles_walk :
    conffilesLines none = [] ∧
    (∀ fn sub fn2,
      conffilesLines (some (.dir [(fn, .file), (sub, .dir [(fn2, .file)])])) =
        ["/etc/" ++ fn, "/etc/" ++ sub ++ "/" ++ fn2]) ∧
    conffilesLines
        (some (.dir [("app.conf", .file), ("sub", .dir [("other.conf", .file)])])) =
      ["/etc/app.conf", "/etc/sub/other.conf"] ∧
    (∀ ctx etcTree, write_conffiles ctx etcTree =
      [FsEvent.writeLines (control_path ctx "conffiles")
        (conffilesLines etcTree) none]) :=
  ⟨rfl, fun _ _ _ => rfl, by decide, fun _ _ => rfl⟩

/-- **C2 (counterexample).** The claim says the control lines appear in the
insertion order of the field-construction rule set (`Source`, `Version`,
`Architecture`, `Maintainer`, `Description`, then the conditional fields).
The source builds a plain Python 2 `dict` and iterates it, and Python 2
dicts do not iterate in insertion order: for a minimal package the rendered
order is `Maintainer, Description, Package, Source, Version, Architecture`,
not the claimed one. -/
theorem c2_counterexample :
    controlLines pkgExample none ≠
      ["Source: app", "Version: 1.0", "Architecture: amd64",
       "Maintainer: Jane Doe <jane@example.com>",
       "Description: A tool.\n Does things.", "Package: app"] := by
  rw [show controlLines pkgExample none =
      (pyDictItems (insertAll (pyDictEmpty String 8)
        (withVals ["app", "1.0", "amd64", "Jane Doe <jane@example.com>",
          "A tool.\n Does things."] minIdx))).map
        (fun kv => kv.1 ++ ": " ++ kv.2) from rfl,
    items_insertAll_withVals,
    show pyDictItems (insertAll (pyDictEmpty Nat 8) minIdx) =
      [("Maintainer", 3), ("Description", 4), ("Package", 0), ("Source", 0),
       ("Version", 1), ("Architecture", 2)] by decide]
  decide

/-- **C2 (amended).** The rendered control file consists of `Field: value`
lines built from the deterministic rule set (`Source`, `Version`,
`Architecture`, `Maintainer`, `Description` unconditionally, plus
`Homepage`, `Package`, `Section`, `Priority`, `Depends`, `Conflicts` under
their conditions), with a field omitted exactly when its source value is
absent/empty — but the line order is the CPython 2 hash table's iteration
order, a deterministic function of the set of present fields, not the
insertion order.  Proved for every value assignment, for each presence
pattern: each optional field alone, all together, none, and
present-but-empty `Depends`/`Conflicts` lists (which are omitted like
absent ones). -/
theorem c2_control_field_order_amended :
    (∀ n v a mn me d ld cr,
      controlLines ⟨n, v, .strv a, mn, me, d, ld, none, none, none, none, none,
          cr, []⟩ none =
        ["Maintainer: " ++ (mn ++ " <" ++ me ++ ">"),
         "Description: " ++ (string_ending_in_period d ++ "\n " ++
           string_ending_in_period ld),
         "Package: " ++ n, "Source: " ++ n, "Version: " ++ v,
         "Architecture: " ++ a]) ∧
    (∀ n v a mn me d ld cr h,
      controlLines ⟨n, v, .strv a, mn, me, d, ld, some h, none, none, none,
          none, cr, []⟩ none =
        ["Maintainer: " ++ (mn ++ " <" ++ me ++ ">"),
         "Description: " ++ (string_ending_in_period d ++ "\n " ++
           string_ending_in_period ld),
         "Package: " ++ n, "Source: " ++ n, "Version: " ++ v,
         "Architecture: " ++ a, "Homepage: " ++ h]) ∧
    (∀ n v a mn me d ld cr s,
      controlLines ⟨n, v, .strv a, mn, me, d, ld, none, some s, none, none,
          none, cr, []⟩ none =
        ["Maintainer: " ++ (mn ++ " <" ++ me ++ ">"),
         "Description: " ++ (string_ending_in_period d ++ "\n " ++
           string_ending_in_period ld),
         "Package: " ++ n, "Section: " ++ s, "Source: " ++ n,
         "Version: " ++ v, "Architecture: " ++ a]) ∧
    (∀ n v a mn me d ld cr p,
      controlLines ⟨n, v, .strv a, mn, me, d, ld, none, none, some p, none,
          none, cr, []⟩ none =
        ["Maintainer: " ++ (mn ++ " <" ++ me ++ ">"),
         "Description: " ++ (string_ending_in_period d ++ "\n " ++
           string_ending_in_period ld),
         "Package: " ++ n, "Priority: " ++ p, "Source: " ++ n,
         "Version: " ++ v, "Architecture: " ++ a]) ∧
    (∀ n v a mn me d ld cr dx dxs,
      controlLines ⟨n, v, .strv a, mn, me, d, ld, none, none, none,
          some (dx :: dxs), none, cr, []⟩ none =
        ["Maintainer: " ++ (mn ++ " <" ++ me ++ ">"),
         "Description: " ++ (string_ending_in_period d ++ "\n " ++
           string_ending_in_period ld),
         "Package: " ++ n, "Source: " ++ n,
         "Depends: " ++ String.intercalate ", " (dx :: dxs),
         "Version: " ++ v, "Architecture: " ++ a]) ∧
    (∀ n v a mn me d ld cr cx cxs,
      controlLines ⟨n, v, .strv a, mn, me, d, ld, none, none, none, none,
          some (cx :: cxs), cr, []⟩ none =
        ["Maintainer: " ++ (mn ++ " <" ++ me ++ ">"),
         "Description: " ++ (string_ending_in_period d ++ "\n " ++
           string_ending_in_period ld),
         "Package: " ++ n, "Source: " ++ n, "Version: " ++ v,
         "Architecture: " ++ a,
         "Conflicts: " ++ String.intercalate ", " (cx :: cxs)]) ∧
    (∀ n v a mn me d ld cr h s p dx dxs cx cxs,
      controlLines ⟨n, v, .strv a, mn, me, d, ld, some h, some s, some p,
          some (dx :: dxs), some (cx :: cxs), cr, []⟩ none =
        ["Maintainer: " ++ (mn ++ " <" ++ me ++ ">"),
         "Description: " ++ (string_ending_in_period d ++ "\n " ++
           string_ending_in_period ld),
         "Package: " ++ n, "Section: " ++ s, "Priority: " ++ p,
         "Source: " ++ n,
         "Depends: " ++ String.intercalate ", " (dx :: dxs),
         "Version: " ++ v, "Architecture: " ++ a,
         "Conflicts: " ++ String.intercalate ", " (cx :: cxs),
         "Homepage: " ++ h]) ∧
    (∀ n v a mn me d ld cr,
      controlLines ⟨n, v, .strv a, mn, me, d, ld, none, none, none, some [],
          some [], cr, []⟩ none =
        ["Maintainer: " ++ (mn ++ " <" ++ me ++ ">"),
         "Description: " ++ (string_ending_in_period d ++ "\n " ++
           string_ending_in_period ld),
         "Package: " ++ n, "Source: " ++ n, "Version: " ++ v,
         "Architecture: " ++ a]) := by
  refine ⟨?_, ?_, ?_, ?_, ?_, ?_, ?_, ?_⟩
  · intro n v a mn me d ld cr
    rw [show controlLines ⟨n, v, .strv a, mn, me, d, ld, none, none, none,
          none, none, cr, []⟩ none =
        (pyDictItems (insertAll (pyDictEmpty String 8)
          (withVals [n, v, a, mn ++ " <" ++ me ++ ">",
            string_ending_in_period d ++ "\n " ++ string_ending_in_period ld]
            minIdx))).map (fun kv => kv.1 ++ ": " ++ kv.2) from rfl,
      items_insertAll_withVals,
      show pyDictItems (insertAll (pyDictEmpty Nat 8) minIdx) =
        [("Maintainer", 3), ("Description", 4), ("Package", 0), ("Source", 0),
         ("Version", 1), ("Architecture", 2)] by decide]
    rfl
  · intro n v a mn me d ld cr h
    rw [show controlLines ⟨n, v, .strv a, mn, me, d, ld, some h, none, none,
          none, none, cr, []⟩ none =
        (pyDictItems (insertAll (pyDictEmpty String 8)
          (withVals [n, v, a, mn ++ " <" ++ me ++ ">",
            string_ending_in_period d ++ "\n " ++ string_ending_in_period ld,
            h] homepageIdx))).map (fun kv => kv.1 ++ ": " ++ kv.2) from rfl,
      items_insertAll_withVals,
      show pyDictItems (insertAll (pyDictEmpty Nat 8) homepageIdx) =
        [("Maintainer", 3), ("Description", 4), ("Package", 0), ("Source", 0),
         ("Version", 1), ("Architecture", 2), ("Homepage", 5)] by decide]
    rfl
  · intro n v a mn me d ld cr s
    rw [show controlLines ⟨n, v, .strv a, mn, me, d, ld, none, some s, none,
          none, none, cr, []⟩ none =
        (pyDictItems (insertAll (pyDictEmpty String 8)
          (withVals [n, v, a, mn ++ " <" ++ me ++ ">",
            string_ending_in_period d ++ "\n " ++ string_ending_in_period ld,
            s] sectionIdx))).map (fun kv => kv.1 ++ ": " ++ kv.2) from rfl,
      items_insertAll_withVals,
      show pyDictItems (insertAll (pyDictEmpty Nat 8) sectionIdx) =
        [("Maintainer", 3), ("Description", 4), ("Package", 0), ("Section", 5),
         ("Source", 0), ("Version", 1), ("Architecture", 2)] by decide]
    rfl
  · intro n v a mn me d ld cr p
    rw [show controlLines ⟨n, v, .strv a, mn, me, d, ld, none, none, some p,
          none, none, cr, []⟩ none =
        (pyDictItems (insertAll (pyDictEmpty String 8)
          (withVals [n, v, a, mn ++ " <" ++ me ++ ">",
            string_ending_in_period d ++ "\n " ++ string_ending_in_period ld,
            p] priorityIdx))).map (fun kv => kv.1 ++ ": " ++ kv.2) from rfl,
      items_insertAll_withVals,
      show pyDictItems (insertAll (pyDictEmpty Nat 8) priorityIdx) =
        [("Maintainer", 3), ("Description", 4), ("Package", 0), ("Priority", 5),
         ("Source", 0), ("Version", 1), ("Architecture", 2)] by decide]
    rfl
  · intro n v a mn me d ld cr dx dxs
    rw [show controlLines ⟨n, v, .strv a, mn, me, d, ld, none, none, none,
          some (dx :: dxs), none, cr, []⟩ none =
        (pyDictItems (insertAll (pyDictEmpty String 8)
          (controlPairs ⟨n, v, .strv a, mn, me, d, ld, none, none, none,
            some (dx :: dxs), none, cr, []⟩ none true))).map
          (fun kv => kv.1 ++ ": " ++ kv.2) from rfl,
      show controlPairs ⟨n, v, .strv a, mn, me, d, ld, none, none, none,
            some (dx :: dxs), none, cr, []⟩ none true =
          withVals [n, v, a, mn ++ " <" ++ me ++ ">",
            string_ending_in_period d ++ "\n " ++ string_ending_in_period ld,
            String.intercalate ", " (dx :: dxs)] dependsIdx by
        simp only [controlPairs, List.length_cons, Nat.succ_pos, if_true]
        rfl,
      items_insertAll_withVals,
      show pyDictItems (insertAll (pyDictEmpty Nat 8) dependsIdx) =
        [("Maintainer", 3), ("Description", 4), ("Package", 0), ("Source", 0),
         ("Depends", 5), ("Version", 1), ("Architecture", 2)] by decide]
    rfl
  · intro n v a mn me d ld cr cx cxs
    rw [show controlLines ⟨n, v, .strv a, mn, me, d, ld, none, none, none,
          none, some (cx :: cxs), cr, []⟩ none =
        (pyDictItems (insertAll (pyDictEmpty String 8)
          (controlPairs ⟨n, v, .strv a, mn, me, d, ld, none, none, none,
            none, some (cx :: cxs), cr, []⟩ none true))).map
          (fun kv => kv.1 ++ ": " ++ kv.2) from rfl,
      show controlPairs ⟨n, v, .strv a, mn, me, d, ld, none, none, none,
            none, some (cx :: cxs), cr, []⟩ none true =
          withVals [n, v, a, mn ++ " <" ++ me ++ ">",
            string_ending_in_period d ++ "\n " ++ string_ending_in_period ld,
            String.intercalate ", " (cx :: cxs)] conflictsIdx by
        simp only [controlPairs, List.length_cons, Nat.succ_pos, if_true]
        rfl,
      items_insertAll_withVals,
      show pyDictItems (insertAll (pyDictEmpty Nat 8) conflictsIdx) =
        [("Maintainer", 3), ("Description", 4), ("Package", 0), ("Source", 0),
         ("Version", 1), ("Architecture", 2), ("Conflicts", 5)] by decide]
    rfl
  · intro n v a mn me d ld cr h s p dx dxs cx cxs
    rw [show controlLines ⟨n, v, .strv a, mn, me, d, ld, some h, some s,
          some p, some (dx :: dxs), some (cx :: cxs), cr, []⟩ none =
        (pyDictItems (insertAll (pyDictEmpty String 8)
          (controlPairs ⟨n, v, .strv a, mn, me, d, ld, some h, some s,
            some p, some (dx :: dxs), some (cx :: cxs), cr, []⟩ none true))).map
          (fun kv => kv.1 ++ ": " ++ kv.2) from rfl,
      show controlPairs ⟨n, v, .strv a, mn, me, d, ld, some h, some s,
            some p, some (dx :: dxs), some (cx :: cxs), cr, []⟩ none true =
          withVals [n, v, a, mn ++ " <" ++ me ++ ">",
            string_ending_in_period d ++ "\n " ++ string_ending_in_period ld,
            h, s, p, String.intercalate ", " (dx :: dxs),
            String.intercalate ", " (cx :: cxs)] fullIdx by
        simp only [controlPairs, List.length_cons, Nat.succ_pos, if_true]
        rfl,
      items_insertAll_withVals,
      show pyDictItems (insertAll (pyDictEmpty Nat 8) fullIdx) =
        [("Maintainer", 3), ("Description", 4), ("Package", 0), ("Section", 6),
         ("Priority", 7), ("Source", 0), ("Depends", 8), ("Version", 1),
         ("Architecture", 2), ("Conflicts", 9), ("Homepage", 5)] by decide]
    rfl
  · intro n v a mn me d ld cr
    rw [show controlLines ⟨n, v, .strv a, mn, me, d, ld, none, none, none,
          some [], some [], cr, []⟩ none =
        (pyDictItems (insertAll (pyDictEmpty String 8)
          (withVals [n, v, a, mn ++ " <" ++ me ++ ">",
            string_ending_in_period d ++ "\n " ++ string_ending_in_period ld]
            minIdx))).map (fun kv => kv.1 ++ ": " ++ kv.2) from rfl,
      items_insertAll_withVals,
      show pyDictItems (insertAll (pyDictEmpty Nat 8) minIdx) =
        [("Maintainer", 3), ("Description", 4), ("Package", 0), ("Source", 0),
         ("Version", 1), ("Architecture", 2)] by decide]
    rfl

/-- **C1.** For every scratch root (as produced by `mkdtemp`: nonempty, no
trailing slash) and destination path (no spaces, as `run` word-splits the
`rm` command line on spaces), `pack` compresses the control and data trees,
writes the `debian-binary` marker holding exactly `"2.0\n"`, removes any
pre-existing file at the destination (`rm -f`, strictly before the archive
is created), and creates the `ar` archive whose members are, in this exact
order: `debian-binary` with content `"2.0\n"`, then the gzip-compressed
control tarball, then the gzip-compressed data tarball. -/
theorem c1_pack_archive_order :
    ∀ root dest : String,
      root.data ≠ [] → root.data.getLast? ≠ some '/' →
      (∀ c ∈ dest.data, c ≠ ' ') →
      pack ⟨root, [], []⟩ dest =
        [FsEvent.targzCreate (root ++ "/" ++ "control.tar.gz")
           (root ++ "/" ++ "control"),
         FsEvent.targzCreate (root ++ "/" ++ "data.tar.gz")
           (root ++ "/" ++ "data"),
         FsEvent.writeFile (root ++ "/" ++ "debian-binary") "2.0\n",
         FsEvent.runCmd ["rm", "-f", dest],
         FsEvent.arCreate dest
           [root ++ "/" ++ "debian-binary", root ++ "/" ++ "control.tar.gz",
            root ++ "/" ++ "data.tar.gz"]] ∧
      arMembersOf (pack ⟨root, [], []⟩ dest)
          [root ++ "/" ++ "debian-binary", root ++ "/" ++ "control.tar.gz",
           root ++ "/" ++ "data.tar.gz"] =
        [("debian-binary", some (.literal "2.0\n")),
         ("control.tar.gz", some (.gzTarOfTree (root ++ "/" ++ "control"))),
         ("data.tar.gz", some (.gzTarOfTree (root ++ "/" ++ "data")))] := by
  intro root dest h1 h2 h3
  have e1 : pyJoin root "control.tar.gz" = root ++ "/" ++ "control.tar.gz" :=
    pyJoin_eq _ _ h1 h2 (by decide)
  have e2 : pyJoin root "data.tar.gz" = root ++ "/" ++ "data.tar.gz" :=
    pyJoin_eq _ _ h1 h2 (by decide)
  have e3 : pyJoin root "debian-binary" = root ++ "/" ++ "debian-binary" :=
    pyJoin_eq _ _ h1 h2 (by decide)
  have e4 : pyJoin root "control" = root ++ "/" ++ "control" :=
    pyJoin_eq _ _ h1 h2 (by decide)
  have e5 : pyJoin root "data" = root ++ "/" ++ "data" :=
    pyJoin_eq _ _ h1 h2 (by decide)
  have hA : pack ⟨root, [], []⟩ dest =
      [FsEvent.targzCreate (root ++ "/" ++ "control.tar.gz")
         (root ++ "/" ++ "control"),
       FsEvent.targzCreate (root ++ "/" ++ "data.tar.gz")
         (root ++ "/" ++ "data"),
       FsEvent.writeFile (root ++ "/" ++ "debian-binary") "2.0\n",
       FsEvent.runCmd ["rm", "-f", dest],
       FsEvent.arCreate dest
         [root ++ "/" ++ "debian-binary", root ++ "/" ++ "control.tar.gz",
          root ++ "/" ++ "data.tar.gz"]] := by
    simp only [pack, ctxData, ctxControl]
    rw [e1, e2, e3, e4, e5, rmArgs_eq dest h3]
  have b1 : pyBasename (root ++ "/" ++ "debian-binary") = "debian-binary" :=
    pyBasename_append root _ (by decide)
  have b2 : pyBasename (root ++ "/" ++ "control.tar.gz") = "control.tar.gz" :=
    pyBasename_append root _ (by decide)
  have b3 : pyBasename (root ++ "/" ++ "data.tar.gz") = "data.tar.gz" :=
    pyBasename_append root _ (by decide)
  have n1 : root ++ "/" ++ "debian-binary" ≠ root ++ "/" ++ "control.tar.gz" :=
    @append_right_ne (root ++ "/") "debian-binary" "control.tar.gz" (by decide)
  have n2 : root ++ "/" ++ "data.tar.gz" ≠ root ++ "/" ++ "control.tar.gz" :=
    @append_right_ne (root ++ "/") "data.tar.gz" "control.tar.gz" (by decide)
  have n3 : root ++ "/" ++ "debian-binary" ≠ root ++ "/" ++ "data.tar.gz" :=
    @append_right_ne (root ++ "/") "debian-binary" "data.tar.gz" (by decide)
  refine ⟨hA, ?_⟩
  rw [hA]
  simp [arMembersOf, fileContentIn, b1, b2, b3, n1, n2, n3]

/-- Witness for C1 at `root = "/tmp/gw"`, `dest = "/out/app.deb"`. -/
theorem c1_pack_archive_order_witness :
    (("/tmp/gw" : String).data ≠ [] ∧
      ("/tmp/gw" : String).data.getLast? ≠ some '/' ∧
      (∀ c ∈ ("/out/app.deb" : String).data, c ≠ ' ')) ∧
    (pack ⟨"/tmp/gw", [], []⟩ "/out/app.deb" =
      [FsEvent.targzCreate "/tmp/gw/control.tar.gz" "/tmp/gw/control",
       FsEvent.targzCreate "/tmp/gw/data.tar.gz" "/tmp/gw/data",
       FsEvent.writeFile "/tmp/gw/debian-binary" "2.0\n",
       FsEvent.runCmd ["rm", "-f", "/out/app.deb"],
       FsEvent.arCreate "/out/app.deb"
         ["/tmp/gw/debian-binary", "/tmp/gw/control.tar.gz",
          "/tmp/gw/data.tar.gz"]] ∧
     arMembersOf (pack ⟨"/tmp/gw", [], []⟩ "/out/app.deb")
        ["/tmp/gw/debian-binary", "/tmp/gw/control.tar.gz",
         "/tmp/gw/data.tar.gz"] =
      [("debian-binary", some (.literal "2.0\n")),
       ("control.tar.gz", some (.gzTarOfTree "/tmp/gw/control")),
       ("data.tar.gz", some (.gzTarOfTree "/tmp/gw/data"))]) :=
  ⟨⟨by decide, by decide, by decide⟩,
   c1_pack_archive_order "/tmp/gw" "/out/app.deb" (by decide) (by decide)
     (by decide)⟩

/-- **C4 (counterexample).** Applying the symlink rule with source
`/usr/lib/app/lib.so` and link-target `/usr/lib/lib.so` does *not* record a
`(source, link-target)` pair (the symlink list stays empty), and the
filesystem link is created at `lib.so` — the *basename* of the link-target,
relative to the process CWD — not at the link-target path `/usr/lib/lib.so`
as the claim states. -/
theorem c4_symlink_counterexample :
    ("/usr/lib/app/lib.so", "/usr/lib/lib.so") ∉
      (symlinkRuleApply ⟨"/tmp/gw", [], []⟩ "/usr/lib/app/lib.so"
        "/usr/lib/lib.so").1.symlinks ∧
    (symlinkRuleApply ⟨"/tmp/gw", [], []⟩ "/usr/lib/app/lib.so"
        "/usr/lib/lib.so").2.getLast? =
      some (FsEvent.symlinkAt "/tmp/gw/data/usr/lib/app/lib.so" "lib.so") ∧
    FsEvent.symlinkAt "/tmp/gw/data/usr/lib/app/lib.so" "/usr/lib/lib.so" ∉
      (symlinkRuleApply ⟨"/tmp/gw", [], []⟩ "/usr/lib/app/lib.so"
        "/usr/lib/lib.so").2 :=
  ⟨by decide, by decide, by decide⟩

/-- **C4 (amended).** Applying a symlink rule records nothing in the build
context (it is returned unchanged); it resolves the source's parent
directory inside the data tree and immediately creates the symbolic link at
the *basename* of the link-target — a path relative to the process's
current working directory — pointing at the resolved absolute staged source
path.  Separately, the deferred finalization step run after all rules
prints one diagnostic line and creates one symlink under the data tree per
*recorded* pair — and symlink rules record none. -/
theorem c4_symlink_amended :
    (∀ ctx src lnk, (symlinkRuleApply ctx src lnk).1 = ctx) ∧
    (∀ ctx src lnk, (symlinkRuleApply ctx src lnk).2 =
      (data_dir_path ctx (pyDirname src) 0o755 true).2 ++
        [FsEvent.symlinkAt
          (pyJoin (data_dir_path ctx (pyDirname src) 0o755 true).1
            (pyBasename src))
          (pyBasename lnk)]) ∧
    (∀ root pc, write_symlinks ⟨root, pc, []⟩ = []) ∧
    (∀ root pc s l rest, write_symlinks ⟨root, pc, (s, l) :: rest⟩ =
      FsEvent.printLine
          (s ++ " <- " ++ pyJoin (pyJoin root "data") l ++ " (" ++ l ++ ")") ::
        FsEvent.symlinkAt s (pyJoin (pyJoin root "data") l) ::
        write_symlinks ⟨root, pc, rest⟩) :=
  ⟨fun _ _ _ => rfl, fun _ _ _ => rfl, fun _ _ => rfl,
   fun _ _ _ _ _ => rfl⟩

/-- **C5.** The code performs no Package Description validation at all:
`PackagingContext.__init__` takes no package and unconditionally creates the
scratch root and its `data`/`control` subdirectories before any package can
be inspected, and `build` on a package with empty name and empty version
runs to completion (the model is a total function), staging files and
writing a control file whose `Source`/`Package`/`Version` values are empty —
no configuration error is raised before (or after) filesystem mutation. -/
theorem c5_no_validation :
    (∀ root, (ctxInit root).2 =
      [FsEvent.mkdirTree root, FsEvent.mkdirOne (pyJoin root "data"),
       FsEvent.mkdirOne (pyJoin root "control")]) ∧
    FsEvent.writeLines "/tmp/gw/control/control"
        ["Maintainer: Jane Doe <jane@example.com>",
         "Description: A tool.\n Does things.", "Package: ", "Source: ",
         "Version: ", "Architecture: amd64"] none ∈
      (build ⟨"/tmp/gw", [], []⟩ { pkgExample with name := "", version := "" }
        none none).2 :=
  ⟨fun _ => rfl, by decide⟩

/-- **C9.** For every call `data_path(p, permissions)` where `p` names an
entry directly under the installation root (after `lstrip('/')` it has no
further slash, so its parent resolves to the data root itself), the only
chmod performed is on `<data-root>/.` with the given permissions — i.e. the
relative-path decomposition in `_mkdirp` yields the `'.'` component, and
chmodding it changes the permission bits of the staging data-root directory
itself (`<data-root>/.` and `<data-root>` normalize to the same directory). -/
theorem c9_data_path_chmods_data_root :
    ∀ root p : String, ∀ perms : Nat,
      root.data ≠ [] → root.data.getLast? ≠ some '/' →
      lstripSlash p.data ≠ [] → (∀ c ∈ lstripSlash p.data, c ≠ '/') →
      (data_path ⟨root, [], []⟩ p perms).2 =
        [FsEvent.mkdirTree (root ++ "/" ++ "data"),
         FsEvent.chmod ((root ++ "/" ++ "data") ++ "/" ++ ".") perms] ∧
      normComps ((root ++ "/" ++ "data") ++ "/" ++ ".") =
        normComps (root ++ "/" ++ "data") := by
  intro root p perms h1 h2 h3 h4
  have hdr : ctxData ⟨root, [], []⟩ = root ++ "/" ++ "data" :=
    pyJoin_eq _ _ h1 h2 (by decide)
  have hdr1 : (root ++ "/" ++ "data").data ≠ [] := by
    simp [String.data_append]
  have hdr2 : (root ++ "/" ++ "data").data.getLast? = some 'a' := by
    rw [show (root ++ "/" ++ "data").data = root.data ++ ('/' :: "data".data) by
      simp [String.data_append], List.getLast?_append]
    rfl
  have hqh : (String.mk (lstripSlash p.data)).data.head? ≠ some '/' := by
    show (lstripSlash p.data).head? ≠ some '/'
    cases hc : lstripSlash p.data with
    | nil => exact absurd hc h3
    | cons c t =>
      intro hh
      exact h4 c (by rw [hc]; exact List.mem_cons_self c t)
        (Option.some.inj hh)
  have habs : pyJoin (root ++ "/" ++ "data") (String.mk (lstripSlash p.data)) =
      (root ++ "/" ++ "data") ++ "/" ++ String.mk (lstripSlash p.data) :=
    pyJoin_eq _ _ hdr1 (by rw [hdr2]; decide) hqh
  have hdir : pyDirname ((root ++ "/" ++ "data") ++ "/" ++
      String.mk (lstripSlash p.data)) = root ++ "/" ++ "data" :=
    pyDirname_append _ _ (fun c hc => h4 c hc) hdr1 (by rw [hdr2]; decide)
  constructor
  · show mkdirpEvents (ctxData ⟨root, [], []⟩)
      (pyDirname (pyJoin (ctxData ⟨root, [], []⟩)
        (String.mk (lstripSlash p.data)))) perms = _
    rw [hdr, habs, hdir]
    show FsEvent.mkdirTree (root ++ "/" ++ "data") ::
      chmodFold (root ++ "/" ++ "data") perms
        ((splitOnChar '/' (pyRelpath (root ++ "/" ++ "data")
          (root ++ "/" ++ "data")).data).map String.mk) = _
    rw [pyRelpath_self]
    show FsEvent.mkdirTree (root ++ "/" ++ "data") ::
      [FsEvent.chmod (pyJoin (root ++ "/" ++ "data") ".") perms] = _
    rw [pyJoin_eq _ _ hdr1 (by rw [hdr2]; decide) (by decide)]
  · unfold normComps
    rw [show ((root ++ "/" ++ "data") ++ "/" ++ ".").data =
        (root ++ "/" ++ "data").data ++ '/' :: ['.'] by
      simp [String.data_append], splitOnChar_append]
    simp [splitOnChar]

/-- Witness for C9 at `root = "/tmp/gw"`, `p = "/opt"`, `perms = 0o700`. -/
theorem c9_data_path_chmods_data_root_witness :
    (("/tmp/gw" : String).data ≠ [] ∧
      ("/tmp/gw" : String).data.getLast? ≠ some '/' ∧
      lstripSlash ("/opt" : String).data ≠ [] ∧
      (∀ c ∈ lstripSlash ("/opt" : String).data, c ≠ '/')) ∧
    ((data_path ⟨"/tmp/gw", [], []⟩ "/opt" 0o700).2 =
      [FsEvent.mkdirTree "/tmp/gw/data",
       FsEvent.chmod "/tmp/gw/data/." 0o700] ∧
     normComps "/tmp/gw/data/." = normComps "/tmp/gw/data") :=
  ⟨⟨by decide, by decide, by decide, by decide⟩,
   c9_data_path_chmods_data_root "/tmp/gw" "/opt" 0o700 (by decide) (by decide)
     (by decide) (by decide)⟩

end Giftwrap
